import Mathlib

/-!
Verification development for the goMesh serial frame transport and message
codec (src/radio.go).  Go strings are modelled as lists of natural numbers:
byte lists for the frame layer (the transport works on raw bytes) and
Unicode code-point lists for the message codec (Go's regexps, []rune
indexing and TrimPrefix operate on runes; byte-prefix tests on valid UTF-8
agree with rune-prefix tests).  Machine arithmetic is Nat with explicit
mod 256 where Go's byte arithmetic overflows.
-/

/-- Code points of a Lean string; for pure-ASCII strings these are also the
UTF-8 bytes, so the same helper serves both layers. -/
def strRunes (s : String) : List Nat :=
  s.data.map Char.toNat

/-- Bool test that `pat` is a prefix of the second list. -/
def listStartsWith : List Nat → List Nat → Bool
  | [], _ => true
  | _ :: _, [] => false
  | a :: as, b :: bs => a == b && listStartsWith as bs

/-- Go strings.Contains: `pat` occurs as a contiguous run. -/
def containsPat (pat : List Nat) : List Nat → Bool
  | [] => listStartsWith pat []
  | b :: rest => listStartsWith pat (b :: rest) || containsPat pat rest

/-- unicode.IsPrint(rune(b)) for a byte b, exact on U+0000..U+00FF:
printable ASCII 0x21..0x7E, the space 0x20, and the Latin-1 block
0xA1..0xFF except the soft hyphen 0xAD (0xA0 NBSP and 0x80..0x9F are not
printable, nor is 0x7F). -/
def goIsPrintByte (b : Nat) : Bool :=
  b == 32 || (33 ≤ b && b ≤ 126) || (161 ≤ b && b ≤ 255 && b != 173)

/-- The explicit console/debug markers of isTextData (src/radio.go
debugPatterns), byte for byte. -/
def debugPatterns : List (List Nat) :=
  [strRunes "DEBUG", strRunes "INFO", strRunes "WARN", strRunes "ERROR", strRunes "TRACE",
   strRunes "SerialConsole", strRunes "Send known nodes",
   strRunes "\x1b[",
   strRunes "| 12:", strRunes "| 13:", strRunes "| 14:", strRunes "| 15:",
   strRunes "| 16:", strRunes "| 17:", strRunes "| 18:", strRunes "| 19:",
   strRunes "| 20:", strRunes "| 21:", strRunes "| 22:", strRunes "| 23:"]

/-- Whether the data holds at least one explicit debug marker. -/
def hasDebugPattern (data : List Nat) : Bool :=
  debugPatterns.any (fun pat => containsPat pat data)

/-- Bytes counted printable by isTextData: unicode.IsPrint(rune(b)) or one of
newline, carriage return, tab, space. -/
def printableCount (data : List Nat) : Nat :=
  data.countP (fun b => goIsPrintByte b || b == 10 || b == 13 || b == 9 || b == 32)

/-- isTextData (src/radio.go): text only when a debug marker is present and
the printable ratio exceeds one half.  Go compares float64 ratios with 0.5;
for any list short of 2^52 elements that float comparison coincides with the
exact comparison 2 * printableCount > length used here. -/
def isTextData (data : List Nat) : Bool :=
  if data.length = 0 then false
  else if hasDebugPattern data = false then false
  else decide (data.length < 2 * printableCount data)

/-- isLikelyFalsePacketHeader (src/radio.go): at least 8 bytes and the
portion after the 4-byte header reads as text. -/
def isLikelyFalsePacketHeader (data : List Nat) : Bool :=
  if data.length < 8 then false
  else if 4 < data.length then isTextData (data.drop 4) else false

/-- The packet length the Go reader computes from header bytes 2 and 3:
`int((bytes[2] << 8) + bytes[3])`.  Both operands are Go bytes, so the
shift and the addition are performed modulo 256 - the shifted high byte
is always 0 and only the low byte survives. -/
def pLen (ps : List Nat) : Nat :=
  ((ps.getD 2 0 * 256) % 256 + ps.getD 3 0) % 256

/-- Error cases of validatePacketStructure. -/
inductive PacketError where
  | headerTooShort
  | badMagic
  | lengthMismatch
  | frameTooLarge
deriving DecidableEq

/-- validatePacketStructure (src/radio.go): none means the packet validated. -/
def validatePacketStructure (packet : List Nat) : Option PacketError :=
  if packet.length < 4 then some PacketError.headerTooShort
  else if ¬ (packet.getD 0 0 = 148) ∨ ¬ (packet.getD 1 0 = 195) then some PacketError.badMagic
  else if ¬ (packet.length - 4 = pLen packet) then some PacketError.lengthMismatch
  else if 512 < pLen packet then some PacketError.frameTooLarge
  else none

/-- Parameter bytes of an ANSI CSI sequence: digits and the semicolon. -/
def isAnsiParam (b : Nat) : Bool :=
  (48 ≤ b && b ≤ 57) || b == 59

/-- ASCII letters, the final byte of an ANSI CSI sequence. -/
def isAsciiLetter (b : Nat) : Bool :=
  (65 ≤ b && b ≤ 90) || (97 ≤ b && b ≤ 122)

/-- Fueled scanner for the regex x1b-bracket-params-letter of
cleanANSIEscapeSequences: a complete sequence is dropped, otherwise the
scan moves one byte forward (the classes of params and final letter are
disjoint, so maximal munch is exact).  The fuel is length + 1, never
exhausted. -/
def stripAnsiF : Nat → List Nat → List Nat
  | 0, l => l
  | _, [] => []
  | fuel + 1, 27 :: 91 :: rest =>
    match rest.dropWhile isAnsiParam with
    | c :: tail =>
      if isAsciiLetter c then stripAnsiF fuel tail
      else 27 :: stripAnsiF fuel (91 :: rest)
    | [] => 27 :: stripAnsiF fuel (91 :: rest)
  | fuel + 1, b :: rest => b :: stripAnsiF fuel rest

/-- cleanANSIEscapeSequences (src/radio.go): remove complete CSI sequences,
then every remaining ESC byte. -/
def cleanANSIEscapeSequences (l : List Nat) : List Nat :=
  (stripAnsiF (l.length + 1) l).filter (fun b => b != 27)

/-- ReplaceAll of the two-byte run CR LF by LF. -/
def normCRLF : List Nat → List Nat
  | [] => []
  | 13 :: 10 :: rest => 10 :: normCRLF rest
  | b :: rest => b :: normCRLF rest

/-- Go's range-over-string decoding: valid UTF-8 sequences become their code
point, every invalid byte becomes U+FFFD and the scan advances one byte
(overlong encodings, surrogates and values above U+10FFFF are invalid).
Fueled with length + 1, never exhausted. -/
def utf8DecodeF : Nat → List Nat → List Nat
  | 0, _ => []
  | _, [] => []
  | fuel + 1, b :: rest =>
    if b < 128 then b :: utf8DecodeF fuel rest
    else if 194 ≤ b ∧ b ≤ 223 then
      match rest with
      | b2 :: rest2 =>
        if 128 ≤ b2 ∧ b2 ≤ 191 then
          ((b - 192) * 64 + (b2 - 128)) :: utf8DecodeF fuel rest2
        else 65533 :: utf8DecodeF fuel rest
      | [] => 65533 :: utf8DecodeF fuel rest
    else if 224 ≤ b ∧ b ≤ 239 then
      match rest with
      | b2 :: b3 :: rest3 =>
        if (128 ≤ b2 ∧ b2 ≤ 191) ∧ (128 ≤ b3 ∧ b3 ≤ 191) ∧
            (¬ b = 224 ∨ 160 ≤ b2) ∧ (¬ b = 237 ∨ b2 ≤ 159) then
          ((b - 224) * 4096 + (b2 - 128) * 64 + (b3 - 128)) :: utf8DecodeF fuel rest3
        else 65533 :: utf8DecodeF fuel rest
      | _ => 65533 :: utf8DecodeF fuel rest
    else if 240 ≤ b ∧ b ≤ 244 then
      match rest with
      | b2 :: b3 :: b4 :: rest4 =>
        if (128 ≤ b2 ∧ b2 ≤ 191) ∧ (128 ≤ b3 ∧ b3 ≤ 191) ∧ (128 ≤ b4 ∧ b4 ≤ 191) ∧
            (¬ b = 240 ∨ 144 ≤ b2) ∧ (¬ b = 244 ∨ b2 ≤ 143) then
          ((b - 240) * 262144 + (b2 - 128) * 4096 + (b3 - 128) * 64 + (b4 - 128))
            :: utf8DecodeF fuel rest4
        else 65533 :: utf8DecodeF fuel rest
      | _ => 65533 :: utf8DecodeF fuel rest
    else 65533 :: utf8DecodeF fuel rest

/-- Byte list to code-point list, Go range semantics. -/
def utf8Decode (l : List Nat) : List Nat :=
  utf8DecodeF (l.length + 1) l

/-- unicode.IsPrint on a code point.  Exact below 256 (the only range the
byte-level classifier reaches); code points at or above 256 are modelled as
printable - the development proves nothing that depends on their
classification, and U+FFFD, the one such point the pipeline itself
introduces, is indeed printable. -/
def goIsPrintRune (r : Nat) : Bool :=
  if r < 256 then goIsPrintByte r else true

/-- cleanControlCharacters (src/radio.go): keep printable code points,
newline, tab and space. -/
def cleanControlCharacters (runes : List Nat) : List Nat :=
  runes.filter (fun r => goIsPrintRune r || r == 10 || r == 9 || r == 32)

/-- strings.Split on the newline. -/
def splitLF : List Nat → List (List Nat)
  | [] => [[]]
  | 10 :: rest => [] :: splitLF rest
  | b :: rest =>
    match splitLF rest with
    | h :: t => (b :: h) :: t
    | [] => [[b]]

/-- unicode.IsSpace: the Unicode white-space code points. -/
def isGoSpace (r : Nat) : Bool :=
  r == 32 || r == 9 || r == 10 || r == 11 || r == 12 || r == 13 ||
  r == 133 || r == 160 || r == 5760 || (8192 ≤ r && r ≤ 8202) ||
  r == 8232 || r == 8233 || r == 8239 || r == 8287 || r == 12288

/-- strings.TrimSpace at the rune level. -/
def trimSpace (l : List Nat) : List Nat :=
  ((l.dropWhile isGoSpace).reverse.dropWhile isGoSpace).reverse

/-- Bytes of the UTF-8 encoding of one code point. -/
def utf8CharLen (c : Nat) : Nat :=
  if c < 128 then 1 else if c < 2048 then 2 else if c < 65536 then 3 else 4

/-- Go len() of the string holding these code points: its UTF-8 byte count. -/
def utf8Len (l : List Nat) : Nat :=
  (l.map utf8CharLen).sum

/-- isPrintableText (src/radio.go): Go counts printable runes but divides by
the byte length; the float comparison with 0.8 coincides with the exact
4 * byteLen less-or-equal 5 * printableRunes for all feasible lengths. -/
def isPrintableText (line : List Nat) : Bool :=
  if line.length = 0 then false
  else decide (4 * utf8Len line ≤ 5 * line.countP (fun r => goIsPrintRune r || r == 32 || r == 9))

/-- extractTextFromBytes (src/radio.go): strip ANSI sequences and stray ESC
bytes, normalize CR LF and CR to LF, drop control characters (decoding the
bytes as Go's range over a string does), split on LF, trim each line, and
keep the nonempty lines that pass the printability ratio. -/
def extractTextFromBytes (data : List Nat) : List (List Nat) :=
  if data.length = 0 then []
  else
    let t1 := cleanANSIEscapeSequences data
    let t2 := (normCRLF t1).map (fun b => if b = 13 then 10 else b)
    let t3 := cleanControlCharacters (utf8Decode t2)
    ((splitLF t3).map trimSpace).filter (fun line => 0 < line.length && isPrintableText line)

/-- State of one ReadResponseWithTypes session: the accumulation buffer, the
pending text run, and the two output sequences (frame payloads handed to the
external codec, and classified text lines). -/
structure AsmState where
  processed : List Nat
  textBuf : List Nat
  frames : List (List Nat)
  texts : List (List Nat)
deriving DecidableEq

/-- Flush of the pending text run when a new frame start arrives
(src/radio.go lines 406-420): a run that classifies as text is extracted
into lines and cleared; a run that does not classify is left in place. -/
def flushPendingText (s : AsmState) : AsmState :=
  if 0 < s.textBuf.length ∧ isTextData s.textBuf = true then
    { s with texts := s.texts ++ extractTextFromBytes s.textBuf, textBuf := [] }
  else s

/-- The complete-packet part of the ReadResponseWithTypes loop body
(src/radio.go lines 456-496), on the buffer `ps` with the byte already
appended: the empty-payload and length-mismatch guards skip silently, a
failed decode reclassifies the whole span as text, a successful decode
emits the frame. -/
def completeFrame (dec : List Nat → Bool) (s : AsmState) (ps : List Nat) : AsmState :=
  let payloadBytes := ps.drop 4
  if payloadBytes.length = 0 then { s with processed := [] }
  else if ¬ payloadBytes.length = pLen ps then { s with processed := [] }
  else if dec payloadBytes = true then
    { s with processed := [], frames := s.frames ++ [payloadBytes] }
  else
    { s with processed := [], textBuf := s.textBuf ++ ps }

/-- The payload part of the ReadResponseWithTypes loop body (src/radio.go
lines 432-496), entered when the buffer already holds a full header: the
oversize check and the false-header check run only on the byte after the
header (where the buffer holds five bytes), then the completion test. -/
def stepWTPayload (dec : List Nat → Bool) (s : AsmState) (b : Nat) : AsmState :=
  let pointer := s.processed.length
  let ps := s.processed ++ [b]
  if pointer = 4 ∧ 512 < pLen ps then
    { s with processed := [], textBuf := s.textBuf ++ [b] }
  else if pointer = 4 ∧ 8 ≤ ps.length ∧ isLikelyFalsePacketHeader ps = true then
    { s with processed := [], textBuf := s.textBuf ++ ps }
  else if ¬ ps.length = 0 ∧ pointer + 1 = pLen ps + 4 then
    completeFrame dec s ps
  else { s with processed := ps }

/-- One byte of the ReadResponseWithTypes loop body (src/radio.go lines
399-510).  The external structured-payload codec proto.Unmarshal is the
parameter `dec`: dec payload is whether decoding the payload succeeds.  An
emitted frame is recorded by its payload bytes. -/
def stepWT (dec : List Nat → Bool) (s : AsmState) (b : Nat) : AsmState :=
  let pointer := s.processed.length
  if pointer = 0 ∧ b = 148 then
    let s1 := flushPendingText s
    { s1 with processed := s1.processed ++ [b] }
  else if pointer = 1 ∧ b = 195 then
    { s with processed := s.processed ++ [b] }
  else if 0 < pointer ∧ pointer < 4 then
    { s with processed := s.processed ++ [b] }
  else if 4 ≤ pointer then
    stepWTPayload dec s b
  else
    let s2 := { s with textBuf := s.textBuf ++ [b] }
    if 0 < s2.processed.length then
      { s2 with textBuf := s2.textBuf ++ s2.processed, processed := [] }
    else s2

/-- The read loop: before a byte is processed the repeated-byte counter is
updated and, past 20 repeats, the loop breaks with the byte and the rest of
the stream unprocessed; reaching the end of the list is the transport's
end-of-stream or deadline. -/
def runLoop (dec : List Nat → Bool) : List Nat → Nat → Nat → AsmState → AsmState
  | [], _, _, s => s
  | b :: rest, prev, cnt, s =>
    let c := if b = prev then cnt + 1 else 0
    if 20 < c then s
    else runLoop dec rest b c (stepWT dec s b)

/-- End-of-session flush (src/radio.go lines 518-531): a pending text run
that classifies as text is extracted into lines; the run itself is not
cleared. -/
def finalFlush (s : AsmState) : AsmState :=
  if 0 < s.textBuf.length ∧ isTextData s.textBuf = true then
    { s with texts := s.texts ++ extractTextFromBytes s.textBuf }
  else s

/-- One ReadResponseWithTypes session over the byte stream: previousByte
starts as the single zero byte and both buffers start empty. -/
def runWT (dec : List Nat → Bool) (stream : List Nat) : AsmState :=
  finalFlush (runLoop dec stream 0 0 ⟨[], [], [], []⟩)

/-- State of one ReadResponse session (src/radio.go lines 545-669): only the
accumulation buffer and the decoded frames; this reader keeps no text run. -/
structure RRState where
  processed : List Nat
  frames : List (List Nat)
deriving DecidableEq

/-- One byte of the ReadResponse loop body (src/radio.go lines 586-650): the
byte is appended first; a wrong magic byte at offset 0 or 1 discards the
whole buffer. -/
def stepRR (dec : List Nat → Bool) (s : RRState) (b : Nat) : RRState :=
  let pointer := s.processed.length
  let ps := s.processed ++ [b]
  if pointer = 0 then
    if ¬ b = 148 then { s with processed := [] } else { s with processed := ps }
  else if pointer = 1 then
    if ¬ b = 195 then { s with processed := [] } else { s with processed := ps }
  else if 4 ≤ pointer then
    if pointer = 4 ∧ 512 < pLen ps then { s with processed := [] }
    else if ¬ ps.length = 0 ∧ pointer + 1 = pLen ps + 4 then
      let payloadBytes := ps.drop 4
      if payloadBytes.length = 0 then { s with processed := [] }
      else if ¬ payloadBytes.length = pLen ps then { s with processed := [] }
      else if dec payloadBytes = true then
        { processed := [], frames := s.frames ++ [payloadBytes] }
      else { s with processed := [] }
    else { s with processed := ps }
  else { s with processed := ps }

/-- The byte sequence of the claims' frame round-trip: magic, big-endian
length of the payload, then the payload. -/
def mkFrameBytes (p : List Nat) : List Nat :=
  148 :: 195 :: ((p.length / 256) % 256) :: (p.length % 256) :: p

/-- The repeated-byte idle detector alone: true when a stream, read after a
previous byte `prev` with counter `cnt`, never reaches 21 repeats and so is
consumed completely. -/
def noEarlyBreak : Nat → Nat → List Nat → Bool
  | _, _, [] => true
  | prev, cnt, b :: rest =>
    let c := if b = prev then cnt + 1 else 0
    if 20 < c then false else noEarlyBreak b c rest

/-- A payload codec that accepts every payload: one admissible behaviour of
the opaque external codec, used to instantiate concrete runs. -/
def alwaysDecodes : List Nat → Bool := fun _ => true

/-- A payload codec that rejects every payload. -/
def neverDecodes : List Nat → Bool := fun _ => false

/-- MessageMetadata (src/radio.go): JSON keys r, t, e, rt, each omitted when
empty.  Strings are code-point lists. -/
structure MessageMetadata where
  replyTo : List Nat
  type : List Nat
  reaction : List Nat
  replyText : List Nat
deriving DecidableEq

/-- ParsedMessage (src/radio.go): text, optional metadata, and the format
tag, one of plain, enhanced, simple, ios. -/
structure ParsedMessage where
  text : List Nat
  metadata : Option MessageMetadata
  format : List Nat
deriving DecidableEq

/-- Lowercase hex digit, as encoding/json writes in its escapes. -/
def hexDigit (d : Nat) : Nat :=
  if d < 10 then 48 + d else 87 + d

/-- encoding/json escaping of one code point inside a string value: quote,
backslash, the newline family, other control characters, the HTML-escaped
angle brackets and ampersand, and the line/paragraph separators; everything
else passes through. -/
def jsonEscapeChar (c : Nat) : List Nat :=
  if c = 34 then [92, 34]
  else if c = 92 then [92, 92]
  else if c = 10 then [92, 110]
  else if c = 13 then [92, 114]
  else if c = 9 then [92, 116]
  else if c < 32 then [92, 117, 48, 48, hexDigit (c / 16), hexDigit (c % 16)]
  else if c = 60 then [92, 117, 48, 48, 51, 99]
  else if c = 62 then [92, 117, 48, 48, 51, 101]
  else if c = 38 then [92, 117, 48, 48, 50, 54]
  else if c = 8232 then [92, 117, 50, 48, 50, 56]
  else if c = 8233 then [92, 117, 50, 48, 50, 57]
  else [c]

/-- A JSON string value with its quotes. -/
def jsonStringEnc (s : List Nat) : List Nat :=
  34 :: (s.map jsonEscapeChar).flatten ++ [34]

/-- json.Marshal of MessageMetadata: the fields in declaration order r, t,
e, rt, empty ones omitted (omitempty), joined with commas between braces.
Marshalling a struct of strings cannot fail, so the source's fallback on a
marshal error is unreachable and not modelled. -/
def jsonMarshalMetadata (m : MessageMetadata) : List Nat :=
  let fields :=
    (if m.replyTo = [] then [] else [strRunes "\"r\":" ++ jsonStringEnc m.replyTo]) ++
    (if m.type = [] then [] else [strRunes "\"t\":" ++ jsonStringEnc m.type]) ++
    (if m.reaction = [] then [] else [strRunes "\"e\":" ++ jsonStringEnc m.reaction]) ++
    (if m.replyText = [] then [] else [strRunes "\"rt\":" ++ jsonStringEnc m.replyText])
  [123] ++ List.intercalate [44] fields ++ [125]

/-- JSON whitespace. -/
def jsonWs (c : Nat) : Bool :=
  c == 32 || c == 9 || c == 10 || c == 13

/-- Skip JSON whitespace. -/
def skipJsonWs (l : List Nat) : List Nat :=
  l.dropWhile jsonWs

/-- The single-character JSON escapes; the u-escape is not modelled (the
codec under verification never emits one). -/
def jsonUnescapeChar (e : Nat) : Option Nat :=
  if e = 34 then some 34
  else if e = 92 then some 92
  else if e = 47 then some 47
  else if e = 110 then some 10
  else if e = 116 then some 9
  else if e = 114 then some 13
  else if e = 98 then some 8
  else if e = 102 then some 12
  else none

/-- Body of a JSON string after the opening quote: content up to the closing
quote, rejecting raw control characters as json.Unmarshal does. -/
def parseJsonStrAux : List Nat → Option (List Nat × List Nat)
  | [] => none
  | 34 :: rest => some ([], rest)
  | 92 :: rest =>
    match rest with
    | [] => none
    | e :: rest2 =>
      match jsonUnescapeChar e, parseJsonStrAux rest2 with
      | some c, some (s, r) => some (c :: s, r)
      | _, _ => none
  | c :: rest =>
    if c < 32 then none
    else
      match parseJsonStrAux rest with
      | some (s, r) => some (c :: s, r)
      | none => none

/-- A JSON string value with its opening quote. -/
def parseJsonString (l : List Nat) : Option (List Nat × List Nat) :=
  match l with
  | 34 :: rest => parseJsonStrAux rest
  | _ => none

/-- Assign a parsed key/value pair to the struct field the JSON tag names;
unknown keys are ignored as json.Unmarshal ignores them. -/
def setMetaField (m : MessageMetadata) (key v : List Nat) : MessageMetadata :=
  if key = strRunes "r" then { m with replyTo := v }
  else if key = strRunes "t" then { m with type := v }
  else if key = strRunes "e" then { m with reaction := v }
  else if key = strRunes "rt" then { m with replyText := v }
  else m

/-- The zero MessageMetadata json.Unmarshal starts from. -/
def emptyMetadata : MessageMetadata :=
  ⟨[], [], [], []⟩

/-- The key/value list of a JSON object after its opening brace, fueled by
the input length.  Modelled for the flat string-valued objects this protocol
exchanges: every value must be a string (for the known fields Go errors on
any other value kind too; an unknown key with a non-string value would be
skipped by Go but rejected here - no input in this development has one), and
nothing may follow the closing brace, as json.Unmarshal rejects trailing
data. -/
def parseJsonFields : Nat → List Nat → MessageMetadata → Option MessageMetadata
  | 0, _, _ => none
  | fuel + 1, l, m =>
    match parseJsonString (skipJsonWs l) with
    | none => none
    | some (key, r1) =>
      match skipJsonWs r1 with
      | 58 :: r2 =>
        match parseJsonString (skipJsonWs r2) with
        | none => none
        | some (v, r3) =>
          match skipJsonWs r3 with
          | 44 :: r4 => parseJsonFields fuel r4 (setMetaField m key v)
          | 125 :: r5 => if skipJsonWs r5 = [] then some (setMetaField m key v) else none
          | _ => none
      | _ => none

/-- json.Unmarshal of a MessageMetadata value: an object of string fields,
or failure. -/
def jsonUnmarshalMetadata (s : List Nat) : Option MessageMetadata :=
  match skipJsonWs s with
  | 123 :: r =>
    match skipJsonWs r with
    | 125 :: r2 => if skipJsonWs r2 = [] then some emptyMetadata else none
    | _ => parseJsonFields (s.length + 1) r emptyMetadata
  | _ => none

/-- FormatReplyMessage (src/radio.go): enhanced form is the link glyph, the
metadata object, then the reply body; past 240 UTF-8 bytes it falls back to
the human-readable iOS form. -/
def FormatReplyMessage (replyToID replyToText replyToAuthor replyText : List Nat) : List Nat :=
  let metadataJSON := jsonMarshalMetadata
    { replyTo := replyToID, type := strRunes "reply", reaction := [], replyText := replyToText }
  let enhanced := strRunes "🔗" ++ metadataJSON ++ replyText
  if utf8Len enhanced ≤ 240 then enhanced
  else strRunes "↩️ @" ++ replyToAuthor ++ strRunes ": " ++ replyToText
       ++ strRunes "\n\n" ++ replyText

/-- FormatReactionMessage (src/radio.go): the emoji then the metadata
object; past 240 UTF-8 bytes it falls back to the simple colon-colon form. -/
def FormatReactionMessage (messageID emoji : List Nat) : List Nat :=
  let metadataJSON := jsonMarshalMetadata
    { replyTo := messageID, type := strRunes "reaction", reaction := emoji, replyText := [] }
  let enhanced := emoji ++ metadataJSON
  if utf8Len enhanced ≤ 240 then enhanced
  else emoji ++ strRunes "::" ++ messageID

/-- The leading glyphs ParseMessage recognizes for the enhanced format:
link, thumbs-up, heart (heart plus variation selector, two code points),
laughing, crying, fire. -/
def recognizedGlyphs : List (List Nat) :=
  [strRunes "🔗", strRunes "👍", strRunes "❤️", strRunes "😂", strRunes "😢", strRunes "🔥"]

/-- The anchored simple-reaction regex: one non-newline rune, a literal
double colon, then one or more non-newline runes to the end.  Returns the
two capture groups. -/
def simpleReactionMatch (t : List Nat) : Option (Nat × List Nat) :=
  match t with
  | c :: 58 :: 58 :: rest =>
    if ¬ c = 10 ∧ 0 < rest.length ∧ rest.all (fun x => x != 10) = true then
      some (c, rest)
    else none
  | _ => none

/-- The character class of RE2's Perl s-class: tab, newline, form feed,
carriage return, space. -/
def isRe2Space (c : Nat) : Bool :=
  c == 9 || c == 10 || c == 12 || c == 13 || c == 32

/-- Tail of the iOS regex after the whitespace that follows the colon: a
lazy non-newline group, the literal blank line, then one or more
non-newline runes to the end.  The lazy group cannot cross a newline, so
it is the run up to the first newline, which must be doubled. -/
def iosTail2 (v : List Nat) : Option (List Nat × List Nat) :=
  let g2 := v.takeWhile (fun c => c != 10)
  if g2.length = 0 then none
  else
    match v.drop g2.length with
    | 10 :: 10 :: g3 =>
      if 0 < g3.length ∧ g3.all (fun c => c != 10) = true then some (g2, g3) else none
    | _ => none

/-- Greedy one-or-more whitespace after the colon: lengths are tried from
the longest run down, as RE2's leftmost-first search backtracks. -/
def iosTailW : Nat → List Nat → Option (List Nat × List Nat)
  | 0, _ => none
  | w + 1, u =>
    match iosTail2 (u.drop (w + 1)) with
    | some r => some r
    | none => iosTailW w u

/-- The part of the iOS regex after the author group's terminating colon. -/
def iosTail (u : List Nat) : Option (List Nat × List Nat) :=
  iosTailW (u.takeWhile isRe2Space).length u

/-- Lazy author group: the shortest one-or-more non-newline run whose
following rune is a colon after which the rest of the pattern matches;
on failure the colon joins the group and the scan continues. -/
def iosG1 : List Nat → List Nat → Option (List Nat × List Nat × List Nat)
  | _, [] => none
  | acc, 58 :: rest =>
    if acc.length = 0 then iosG1 [58] rest
    else
      match iosTail rest with
      | some (g2, g3) => some (acc.reverse, g2, g3)
      | none => iosG1 (58 :: acc) rest
  | _, 10 :: _ => none
  | acc, c :: rest => iosG1 (c :: acc) rest

/-- The anchored iOS-reply regex: the return glyph with variation selector,
one or more whitespace, an at sign, the lazy author group, a colon, one or
more whitespace, the quoted original text, a blank line, then the body.
Returns the groups author, original text, body. -/
def iosMatch (t : List Nat) : Option (List Nat × List Nat × List Nat) :=
  match t with
  | 8617 :: 65039 :: rest =>
    let ws := rest.takeWhile isRe2Space
    if ws.length = 0 then none
    else
      match rest.drop ws.length with
      | 64 :: afterAt => iosG1 [] afterAt
      | _ => none
  | _ => none

/-- ParseMessage (src/radio.go).  The enhanced branch takes the first code
point as the glyph, bounds a candidate metadata object at the first closing
brace of the remainder, and on a parse whose type is reply or reaction
returns the enhanced result; on a parse of another type it falls through
with the metadata and trimmed text already written into the result, as the
source does.  Then the simple-reaction regex, the iOS regex behind its
prefix guard, and finally plain. -/
def ParseMessage (text : List Nat) : ParsedMessage :=
  let result0 : ParsedMessage := { text := text, metadata := none, format := strRunes "plain" }
  let enh : Option ParsedMessage × ParsedMessage :=
    if recognizedGlyphs.any (fun g => listStartsWith g text) = true then
      match text with
      | [] => (none, result0)
      | _ :: rest =>
        match rest.findIdx? (fun x => x == 125) with
        | some j =>
          if 0 < j then
            match jsonUnmarshalMetadata (rest.take (j + 1)) with
            | some md =>
              let r1 : ParsedMessage :=
                { text := trimSpace (rest.drop (j + 1)), metadata := some md,
                  format := result0.format }
              if md.type = strRunes "reply" then
                (some { r1 with format := strRunes "enhanced" }, r1)
              else if md.type = strRunes "reaction" then
                (some { r1 with format := strRunes "enhanced" }, r1)
              else (none, r1)
            | none => (none, result0)
          else (none, result0)
        | none => (none, result0)
    else (none, result0)
  match enh with
  | (some r, _) => r
  | (none, result1) =>
    match simpleReactionMatch text with
    | some (c, mid) =>
      { text := [],
        metadata := some { replyTo := mid, type := strRunes "reaction",
                           reaction := [c], replyText := [] },
        format := strRunes "simple" }
    | none =>
      if listStartsWith (strRunes "↩️") text = true then
        match iosMatch text with
        | some (_, origText, body) =>
          { text := body,
            metadata := some { replyTo := [], type := strRunes "reply",
                               reaction := [], replyText := origText },
            format := strRunes "ios" }
        | none => result1
      else result1

/-- ExtractReplyMetadata (src/radio.go): id and original text when the
metadata is a reply, otherwise empty with false. -/
def ExtractReplyMetadata (parsed : ParsedMessage) : List Nat × List Nat × Bool :=
  match parsed.metadata with
  | none => ([], [], false)
  | some md =>
    if md.type = strRunes "reply" then (md.replyTo, md.replyText, true)
    else ([], [], false)

/-- ExtractReactionMetadata (src/radio.go): id and emoji when the metadata
is a reaction, otherwise empty with false. -/
def ExtractReactionMetadata (parsed : ParsedMessage) : List Nat × List Nat × Bool :=
  match parsed.metadata with
  | none => ([], [], false)
  | some md =>
    if md.type = strRunes "reaction" then (md.replyTo, md.reaction, true)
    else ([], [], false)

/-- GetDisplayText (src/radio.go); the Go nil-pointer guard has no
counterpart, the model always holds a value. -/
def GetDisplayText (parsed : ParsedMessage) : List Nat :=
  if parsed.format = strRunes "enhanced" ∨ parsed.format = strRunes "ios" then parsed.text
  else if parsed.format = strRunes "simple" then []
  else parsed.text

/-- IsReply (src/radio.go). -/
def IsReply (parsed : ParsedMessage) : Bool :=
  match parsed.metadata with
  | some md => md.type == strRunes "reply"
  | none => false

/-- IsReaction (src/radio.go). -/
def IsReaction (parsed : ParsedMessage) : Bool :=
  match parsed.metadata with
  | some md => md.type == strRunes "reaction"
  | none => false

/-- C1 counterexample: for the empty payload (length 0, inside the claimed
range) the assembled stream is just the four header bytes; the session ends
with zero frames and zero classified lines, not with one frame, because the
completion test of the loop can never fire for a declared length of zero. -/
theorem c1_zero_payload_counterexample :
    (runWT alwaysDecodes (mkFrameBytes [])).frames = [] ∧
    (runWT alwaysDecodes (mkFrameBytes [])).texts = [] ∧
    (runWT alwaysDecodes (mkFrameBytes [])).processed = [148, 195, 0, 0] := by
  refine ⟨rfl, rfl, rfl⟩

/-- C2: the packet 0x94 0xC3 0x01 0x00 declares the big-endian payload
length 256 while carrying none, so the claim demands a LengthMismatch
failure; the Go byte expression discards the high length byte (a byte
shifted left by 8 is zero), computes expected length 0, and the packet
validates successfully. -/
theorem c2_validate_ignores_high_length_byte :
    validatePacketStructure [148, 195, 1, 0] = none ∧
    pLen [148, 195, 1, 0] = 0 ∧ ¬ (4 - 4 = 1 * 256 + 0) := by
  refine ⟨rfl, rfl, by decide⟩

/-- C3: a header declaring the big-endian length 513 (bytes 0x02 0x01) is
read by the code as length 1, so validatePacketStructure accepts a packet
with one payload byte instead of failing FrameTooLarge, and the assembler,
under a codec that accepts the one-byte payload, assembles a frame from
that very header. -/
theorem c3_validate_accepts_declared_513 :
    validatePacketStructure [148, 195, 2, 1, 170] = none ∧
    (512 < 2 * 256 + 1) ∧
    (runWT alwaysDecodes [148, 195, 2, 1, 170]).frames = [[170]] := by
  refine ⟨rfl, by decide, rfl⟩

/-- C4 counterexample: with the buffer holding exactly the first magic byte,
the input byte 0x41 (not 0xC3) is appended to the accumulation buffer and
kept as part of the prospective header; the text run stays empty and the
buffer is not cleared, against the claim. -/
theorem c4_byte_retained_counterexample :
    stepWT alwaysDecodes ⟨[148], [], [], []⟩ 65 = ⟨[148, 65], [], [], []⟩ := by
  rfl

/-- C5: the stream 0x94 0xC3 0x00 0x08 followed by the eight payload bytes
0xFA 0x7F 0x05 and the marker DEBUG satisfies the false-header test (the
payload part classifies as text), yet under a codec that accepts the payload
(the bytes are a well-formed protobuf record: field 2047, wire type 2,
length 5) the assembler emits it as a frame and classifies nothing as text:
the false-header check of ReadResponseWithTypes sits behind a length guard
of 8 that is evaluated when the buffer holds 5 bytes, and can never fire. -/
theorem c5_false_header_frame_emitted :
    isLikelyFalsePacketHeader [148, 195, 0, 8, 250, 127, 5, 68, 69, 66, 85, 71] = true ∧
    (runWT alwaysDecodes [148, 195, 0, 8, 250, 127, 5, 68, 69, 66, 85, 71]).frames
      = [[250, 127, 5, 68, 69, 66, 85, 71]] ∧
    (runWT alwaysDecodes [148, 195, 0, 8, 250, 127, 5, 68, 69, 66, 85, 71]).texts = [] := by
  refine ⟨by decide, rfl, rfl⟩

/-- C6 counterexample: after a syntactically complete zero-length frame
(header 0x94 0xC3 0x00 0x00) and one further byte, nothing was appended to
the text run and the accumulation buffer was not cleared - the declared
length 0 makes the completion test unsatisfiable, so the span is neither
textified nor released. -/
theorem c6_zero_length_counterexample :
    (runWT alwaysDecodes [148, 195, 0, 0, 65]).textBuf = [] ∧
    (runWT alwaysDecodes [148, 195, 0, 0, 65]).processed = [148, 195, 0, 0, 65] ∧
    (runWT alwaysDecodes [148, 195, 0, 0, 65]).frames = [] := by
  refine ⟨rfl, rfl, rfl⟩

/-- C7: isTextData is true only when an explicit debug marker is present and
at least half of the bytes count as printable; in particular any buffer
without a marker is never classified as text, whatever its printable
ratio. -/
theorem c7_is_text_requires_marker_and_ratio (d : List Nat) :
    (isTextData d = true → hasDebugPattern d = true ∧ d.length ≤ 2 * printableCount d) ∧
    (hasDebugPattern d = false → isTextData d = false) := by
  constructor
  · intro h
    by_cases h0 : d.length = 0
    · simp [isTextData, h0] at h
    · by_cases hp : hasDebugPattern d = false
      · simp [isTextData, h0, hp] at h
      · simp [isTextData, h0, hp] at h
        exact ⟨by revert hp; cases hasDebugPattern d <;> simp, by omega⟩
  · intro hp
    by_cases h0 : d.length = 0 <;> simp [isTextData, h0, hp]

/-- C7 witness: the buffer DEBUG carries a marker and satisfies the ratio
bound by the theorem, and the marker-free buffer of bytes 0 and 1 is not
text. -/
theorem c7_is_text_witness :
    (hasDebugPattern (strRunes "DEBUG") = true ∧
      (strRunes "DEBUG").length ≤ 2 * printableCount (strRunes "DEBUG")) ∧
    isTextData [0, 1] = false :=
  ⟨(c7_is_text_requires_marker_and_ratio (strRunes "DEBUG")).1 (by decide),
   (c7_is_text_requires_marker_and_ratio [0, 1]).2 (by decide)⟩

/-- C9: decoding the encoded reply with id msg_123, original text Hello,
author Alice and body Hi there! yields the enhanced representation, a reply,
the original id and text, and the body as display text. -/
theorem c9_reply_roundtrip :
    (ParseMessage (FormatReplyMessage (strRunes "msg_123") (strRunes "Hello")
        (strRunes "Alice") (strRunes "Hi there!"))).format = strRunes "enhanced" ∧
    IsReply (ParseMessage (FormatReplyMessage (strRunes "msg_123") (strRunes "Hello")
        (strRunes "Alice") (strRunes "Hi there!"))) = true ∧
    ExtractReplyMetadata (ParseMessage (FormatReplyMessage (strRunes "msg_123")
        (strRunes "Hello") (strRunes "Alice") (strRunes "Hi there!")))
      = (strRunes "msg_123", strRunes "Hello", true) ∧
    GetDisplayText (ParseMessage (FormatReplyMessage (strRunes "msg_123") (strRunes "Hello")
        (strRunes "Alice") (strRunes "Hi there!"))) = strRunes "Hi there!" := by
  refine ⟨rfl, rfl, rfl, rfl⟩

/-- C10: the single-code-point thumbs-up reaction round-trips through the
enhanced representation, while the two-code-point heart (heart plus
variation selector) leaves the selector at the head of the candidate
metadata slice, the parse fails, and the decode ends plain with no metadata
and no reaction. -/
theorem c10_reaction_glyph_roundtrip :
    ((ParseMessage (FormatReactionMessage (strRunes "msg_123")
        (strRunes "👍"))).format = strRunes "enhanced" ∧
      IsReaction (ParseMessage (FormatReactionMessage (strRunes "msg_123")
        (strRunes "👍"))) = true ∧
      ExtractReactionMetadata (ParseMessage (FormatReactionMessage (strRunes "msg_123")
        (strRunes "👍"))) = (strRunes "msg_123", strRunes "👍", true)) ∧
    ((ParseMessage (FormatReactionMessage (strRunes "msg_123")
        (strRunes "❤️"))).format = strRunes "plain" ∧
      (ParseMessage (FormatReactionMessage (strRunes "msg_123")
        (strRunes "❤️"))).metadata = none ∧
      IsReaction (ParseMessage (FormatReactionMessage (strRunes "msg_123")
        (strRunes "❤️"))) = false ∧
      (ParseMessage (FormatReactionMessage (strRunes "msg_123")
        (strRunes "❤️"))).text
        = FormatReactionMessage (strRunes "msg_123") (strRunes "❤️")) := by
  refine ⟨⟨rfl, rfl, rfl⟩, ⟨rfl, rfl, rfl, rfl⟩⟩

/-- C4 amended: with exactly the first magic byte buffered, a byte other
than 0xC3 is appended by ReadResponseWithTypes to the accumulation buffer
and retained as part of the prospective header, the text run untouched and
nothing reprocessed; ReadResponse instead clears the buffer, discarding both
bytes without any text-run append or reprocessing. -/
theorem c4_sawstart1_amended (dec : List Nat → Bool) (s : AsmState) (r : RRState) (b : Nat)
    (hs : s.processed = [148]) (hr : r.processed = [148]) (hb : ¬ b = 195) :
    stepWT dec s b = { s with processed := [148, b] } ∧
    stepRR dec r b = { r with processed := [] } := by
  constructor
  · simp [stepWT, hs, hb]
  · simp [stepRR, hr, hb]

/-- C4 amended witness: the byte 0x42 after a buffered 0x94. -/
theorem c4_sawstart1_amended_witness :
    stepWT alwaysDecodes ⟨[148], [], [], []⟩ 66 = ⟨[148, 66], [], [], []⟩ ∧
    stepRR alwaysDecodes ⟨[148], []⟩ 66 = ⟨[], []⟩ :=
  c4_sawstart1_amended alwaysDecodes ⟨[148], [], [], []⟩ ⟨[148], []⟩ 66 rfl rfl (by decide)

/-- The length the reader computes for a buffer shaped header plus payload
with high length byte 0 and low length byte n below 256. -/
theorem pLen_header (n : Nat) (l : List Nat) (hn : n ≤ 255) :
    pLen (148 :: 195 :: 0 :: n :: l) = n := by
  simp [pLen, List.getD_cons_succ, List.getD_cons_zero]
  omega

/-- With a full header buffered, the loop body is its payload part. -/
theorem stepWT_payload_phase (dec : List Nat → Bool) (s : AsmState) (b : Nat)
    (h4 : 4 ≤ s.processed.length) :
    stepWT dec s b = stepWTPayload dec s b := by
  have h0 : ¬ (s.processed.length = 0 ∧ b = 148) := by rintro ⟨h, -⟩; omega
  have h1 : ¬ (s.processed.length = 1 ∧ b = 195) := by rintro ⟨h, -⟩; omega
  have h2 : ¬ (0 < s.processed.length ∧ s.processed.length < 4) := by rintro ⟨-, h⟩; omega
  simp only [stepWT, if_neg h0, if_neg h1, if_neg h2, if_pos h4]

/-- In the payload phase, before the buffer reaches the computed length,
the byte is only appended. -/
theorem stepWTPayload_append (dec : List Nat → Bool) (n : Nat) (r tb : List Nat)
    (fr tx : List (List Nat)) (b : Nat) (hn : n ≤ 255) (hne : ¬ r.length + 1 = n) :
    stepWTPayload dec ⟨148 :: 195 :: 0 :: n :: r, tb, fr, tx⟩ b
      = ⟨148 :: 195 :: 0 :: n :: (r ++ [b]), tb, fr, tx⟩ := by
  have hcons : (148 :: 195 :: 0 :: n :: r : List Nat) ++ [b]
      = 148 :: 195 :: 0 :: n :: (r ++ [b]) := by simp
  have hp : pLen ((148 :: 195 :: 0 :: n :: r) ++ [b]) = n := by
    rw [hcons, pLen_header n _ hn]
  simp only [stepWTPayload, hp]
  have h5 : ¬ ((148 :: 195 :: 0 :: n :: r : List Nat).length = 4 ∧ 512 < n) := by
    rintro ⟨-, h⟩; omega
  have h6 : ¬ ((148 :: 195 :: 0 :: n :: r : List Nat).length = 4 ∧
      8 ≤ ((148 :: 195 :: 0 :: n :: r) ++ [b]).length ∧
      isLikelyFalsePacketHeader ((148 :: 195 :: 0 :: n :: r) ++ [b]) = true) := by
    rintro ⟨hl, h8, -⟩
    simp only [List.length_cons, List.length_append, List.length_nil] at hl h8
    omega
  have h7 : ¬ (¬ ((148 :: 195 :: 0 :: n :: r : List Nat) ++ [b]).length = 0 ∧
      (148 :: 195 :: 0 :: n :: r : List Nat).length + 1 = n + 4) := by
    rintro ⟨-, h⟩
    simp only [List.length_cons, List.length_append, List.length_nil] at h
    omega
  rw [if_neg h5, if_neg h6, if_neg h7, hcons]

/-- The byte that completes the computed length under a codec that accepts
the payload: the frame is emitted and the buffer cleared. -/
theorem stepWTPayload_complete_ok (dec : List Nat → Bool) (n : Nat) (q tb : List Nat)
    (fr tx : List (List Nat)) (b : Nat) (hn : n ≤ 255) (hq : q.length + 1 = n)
    (hdec : dec (q ++ [b]) = true) :
    stepWTPayload dec ⟨148 :: 195 :: 0 :: n :: q, tb, fr, tx⟩ b
      = ⟨[], tb, fr ++ [q ++ [b]], tx⟩ := by
  have hcons : (148 :: 195 :: 0 :: n :: q : List Nat) ++ [b]
      = 148 :: 195 :: 0 :: n :: (q ++ [b]) := by simp
  have hp : pLen ((148 :: 195 :: 0 :: n :: q) ++ [b]) = n := by
    rw [hcons, pLen_header n _ hn]
  simp only [stepWTPayload, hp]
  have h5 : ¬ ((148 :: 195 :: 0 :: n :: q : List Nat).length = 4 ∧ 512 < n) := by
    rintro ⟨-, h⟩; omega
  have h6 : ¬ ((148 :: 195 :: 0 :: n :: q : List Nat).length = 4 ∧
      8 ≤ ((148 :: 195 :: 0 :: n :: q) ++ [b]).length ∧
      isLikelyFalsePacketHeader ((148 :: 195 :: 0 :: n :: q) ++ [b]) = true) := by
    rintro ⟨hl, h8, -⟩
    simp only [List.length_cons, List.length_append, List.length_nil] at hl h8
    omega
  have h7 : ¬ ((148 :: 195 :: 0 :: n :: q : List Nat) ++ [b]).length = 0 ∧
      (148 :: 195 :: 0 :: n :: q : List Nat).length + 1 = n + 4 := by
    constructor
    · simp
    · simp only [List.length_cons]; omega
  rw [if_neg h5, if_neg h6, if_pos h7]
  have hdrop : ((148 :: 195 :: 0 :: n :: q : List Nat) ++ [b]).drop 4 = q ++ [b] := by
    rw [hcons]; rfl
  simp only [completeFrame, hdrop, hp]
  have h8 : ¬ (q ++ [b] : List Nat).length = 0 := by simp
  have h9 : ¬ ¬ (q ++ [b] : List Nat).length = n := by
    simp only [List.length_append, List.length_cons, List.length_nil, Decidable.not_not]
    omega
  rw [if_neg h8, if_neg h9, if_pos hdec]

/-- The byte that completes the computed length under a codec that rejects
the payload: the whole span moves to the text run and the buffer clears. -/
theorem stepWTPayload_complete_fail (dec : List Nat → Bool) (n : Nat) (q tb : List Nat)
    (fr tx : List (List Nat)) (b : Nat) (hn : n ≤ 255) (hq : q.length + 1 = n)
    (hdec : dec (q ++ [b]) = false) :
    stepWTPayload dec ⟨148 :: 195 :: 0 :: n :: q, tb, fr, tx⟩ b
      = ⟨[], tb ++ (148 :: 195 :: 0 :: n :: (q ++ [b])), fr, tx⟩ := by
  have hcons : (148 :: 195 :: 0 :: n :: q : List Nat) ++ [b]
      = 148 :: 195 :: 0 :: n :: (q ++ [b]) := by simp
  have hp : pLen ((148 :: 195 :: 0 :: n :: q) ++ [b]) = n := by
    rw [hcons, pLen_header n _ hn]
  simp only [stepWTPayload, hp]
  have h5 : ¬ ((148 :: 195 :: 0 :: n :: q : List Nat).length = 4 ∧ 512 < n) := by
    rintro ⟨-, h⟩; omega
  have h6 : ¬ ((148 :: 195 :: 0 :: n :: q : List Nat).length = 4 ∧
      8 ≤ ((148 :: 195 :: 0 :: n :: q) ++ [b]).length ∧
      isLikelyFalsePacketHeader ((148 :: 195 :: 0 :: n :: q) ++ [b]) = true) := by
    rintro ⟨hl, h8, -⟩
    simp only [List.length_cons, List.length_append, List.length_nil] at hl h8
    omega
  have h7 : ¬ ((148 :: 195 :: 0 :: n :: q : List Nat) ++ [b]).length = 0 ∧
      (148 :: 195 :: 0 :: n :: q : List Nat).length + 1 = n + 4 := by
    constructor
    · simp
    · simp only [List.length_cons]; omega
  rw [if_neg h5, if_neg h6, if_pos h7]
  have hdrop : ((148 :: 195 :: 0 :: n :: q : List Nat) ++ [b]).drop 4 = q ++ [b] := by
    rw [hcons]; rfl
  simp only [completeFrame, hdrop, hp]
  have h8 : ¬ (q ++ [b] : List Nat).length = 0 := by simp
  have h9 : ¬ ¬ (q ++ [b] : List Nat).length = n := by
    simp only [List.length_append, List.length_cons, List.length_nil, Decidable.not_not]
    omega
  have h10 : ¬ dec (q ++ [b]) = true := by rw [hdec]; simp
  rw [if_neg h8, if_neg h9, if_neg h10, hcons]

/-- When the repeat counter never breaks, the read loop folds the step over
the whole stream. -/
theorem runLoop_eq_foldl (dec : List Nat → Bool) :
    ∀ (l : List Nat) (prev cnt : Nat) (s : AsmState),
      noEarlyBreak prev cnt l = true →
      runLoop dec l prev cnt s = l.foldl (stepWT dec) s := by
  intro l
  induction l with
  | nil => intro prev cnt s _; rfl
  | cons b rest ih =>
    intro prev cnt s h
    by_cases hc : 20 < (if b = prev then cnt + 1 else 0)
    · exfalso
      simp only [noEarlyBreak, if_pos hc] at h
      exact Bool.false_ne_true h
    · simp only [noEarlyBreak, if_neg hc] at h
      simp only [runLoop, if_neg hc, List.foldl_cons]
      exact ih b _ (stepWT dec s b) h

/-- Folding the appended-only payload phase: starting from a header plus an
already-accumulated part `r`, while the total stays short of the computed
length everything is appended. -/
theorem foldl_payload_phase (dec : List Nat → Bool) (n : Nat) (hn : n ≤ 255) :
    ∀ (q r tb : List Nat) (fr tx : List (List Nat)),
      4 + r.length + q.length ≤ n + 3 →
      List.foldl (stepWT dec) ⟨148 :: 195 :: 0 :: n :: r, tb, fr, tx⟩ q
        = ⟨148 :: 195 :: 0 :: n :: (r ++ q), tb, fr, tx⟩ := by
  intro q
  induction q with
  | nil => intro r tb fr tx _; simp
  | cons b q2 ih =>
    intro r tb fr tx hbound
    have hne : ¬ r.length + 1 = n := by
      simp only [List.length_cons] at hbound
      omega
    have h4 : 4 ≤ (148 :: 195 :: 0 :: n :: r : List Nat).length := by
      simp only [List.length_cons]
      omega
    rw [List.foldl_cons, stepWT_payload_phase dec _ b h4,
      stepWTPayload_append dec n r tb fr tx b hn hne]
    have hbound2 : 4 + (r ++ [b]).length + q2.length ≤ n + 3 := by
      simp only [List.length_append, List.length_cons, List.length_nil] at hbound ⊢
      omega
    rw [ih (r ++ [b]) tb fr tx hbound2]
    simp

/-- The final flush changes no frames. -/
theorem finalFlush_frames (s : AsmState) : (finalFlush s).frames = s.frames := by
  unfold finalFlush
  split <;> rfl

/-- The final flush changes no accumulation buffer. -/
theorem finalFlush_processed (s : AsmState) : (finalFlush s).processed = s.processed := by
  unfold finalFlush
  split <;> rfl

/-- The final flush changes no text run. -/
theorem finalFlush_textBuf (s : AsmState) : (finalFlush s).textBuf = s.textBuf := by
  unfold finalFlush
  split <;> rfl

/-- The whole loop on a single well-formed frame stream with payload length
1 to 255: the final state before the flush, for either decode outcome. -/
theorem runLoop_single_frame (dec : List Nat → Bool) (p : List Nat)
    (hlen1 : 1 ≤ p.length) (hlen2 : p.length ≤ 255)
    (hrun : noEarlyBreak 0 0 (mkFrameBytes p) = true) :
    runLoop dec (mkFrameBytes p) 0 0 ⟨[], [], [], []⟩
      = (if dec p = true then ⟨[], [], [p], []⟩
         else ⟨[], mkFrameBytes p, [], []⟩ : AsmState) := by
  have hmk : mkFrameBytes p = 148 :: 195 :: 0 :: p.length :: p := by
    unfold mkFrameBytes
    rw [Nat.div_eq_of_lt (by omega), Nat.mod_eq_of_lt (by omega),
      Nat.mod_eq_of_lt (by omega)]
  rw [runLoop_eq_foldl dec _ 0 0 _ hrun, hmk]
  rcases List.eq_nil_or_concat p with hnil | ⟨q, b, hqb⟩
  · rw [hnil] at hlen1; simp at hlen1
  · rw [List.concat_eq_append] at hqb
    subst hqb
    have hql : (q ++ [b] : List Nat).length = q.length + 1 := by simp
    rw [hql] at hlen2 ⊢
    have hhead : List.foldl (stepWT dec) ⟨[], [], [], []⟩ [148, 195, 0, q.length + 1]
        = ⟨[148, 195, 0, q.length + 1], [], [], []⟩ := rfl
    have hsplit : (148 :: 195 :: 0 :: (q.length + 1) :: (q ++ [b]) : List Nat)
        = [148, 195, 0, q.length + 1] ++ (q ++ [b]) := rfl
    rw [hsplit, List.foldl_append, hhead, ← List.append_assoc]
    rw [List.foldl_append]
    have hstep1 : List.foldl (stepWT dec)
        { processed := [148, 195, 0, q.length + 1], textBuf := [], frames := [],
          texts := [] } q
        = ⟨148 :: 195 :: 0 :: (q.length + 1) :: q, [], [], []⟩ := by
      have := foldl_payload_phase dec (q.length + 1) hlen2 q [] [] [] []
        (by simp only [List.length_nil]; omega)
      simpa using this
    rw [hstep1]
    have h4 : 4 ≤ (148 :: 195 :: 0 :: (q.length + 1) :: q : List Nat).length := by
      simp only [List.length_cons]; omega
    simp only [List.foldl_cons, List.foldl_nil]
    rw [stepWT_payload_phase dec _ b h4]
    by_cases hdec : dec (q ++ [b]) = true
    · rw [stepWTPayload_complete_ok dec (q.length + 1) q [] [] [] b hlen2 rfl hdec]
      rw [if_pos hdec]
      simp
    · have hdec2 : dec (q ++ [b]) = false := Bool.eq_false_iff.mpr hdec
      rw [stepWTPayload_complete_fail dec (q.length + 1) q [] [] [] b hlen2 rfl hdec2]
      rw [if_neg hdec]
      simp

/-- C1 amended: for a payload of 1 to 255 bytes (the reader uses only the
low length byte, so longer payloads are mis-framed) that the external codec
accepts, and a stream that does not trip the repeated-byte idle break, the
assembled stream yields exactly one frame carrying the payload and zero
classified text lines.  The zero-length case of the claim fails (see the
counterexample), as does any payload the codec rejects. -/
theorem c1_frame_roundtrip_amended (dec : List Nat → Bool) (p : List Nat)
    (hlen1 : 1 ≤ p.length) (hlen2 : p.length ≤ 255)
    (hdec : dec p = true)
    (hrun : noEarlyBreak 0 0 (mkFrameBytes p) = true) :
    (runWT dec (mkFrameBytes p)).frames = [p] ∧
    (runWT dec (mkFrameBytes p)).texts = [] := by
  unfold runWT
  rw [runLoop_single_frame dec p hlen1 hlen2 hrun, if_pos hdec]
  constructor
  · rw [finalFlush_frames]
  · rfl

/-- C1 amended witness: the two-byte payload 1 2 under a codec that accepts
it. -/
theorem c1_frame_roundtrip_amended_witness :
    (runWT alwaysDecodes (mkFrameBytes [1, 2])).frames = [[1, 2]] ∧
    (runWT alwaysDecodes (mkFrameBytes [1, 2])).texts = [] :=
  c1_frame_roundtrip_amended alwaysDecodes [1, 2] (by decide) (by decide) rfl (by decide)

/-- C6 amended: when the payload of a syntactically complete frame of 1 to
255 payload bytes fails structured-payload decoding, the assembler appends
the entire buffered span, header plus payload, to the text run, clears the
accumulation buffer, emits no frame, and the session ends normally.  The
zero-length half of the claim fails: such a frame never completes and its
bytes stay in the accumulation buffer (see the counterexample). -/
theorem c6_decode_failure_amended (dec : List Nat → Bool) (p : List Nat)
    (hlen1 : 1 ≤ p.length) (hlen2 : p.length ≤ 255)
    (hdec : dec p = false)
    (hrun : noEarlyBreak 0 0 (mkFrameBytes p) = true) :
    (runWT dec (mkFrameBytes p)).frames = [] ∧
    (runWT dec (mkFrameBytes p)).processed = [] ∧
    (runWT dec (mkFrameBytes p)).textBuf = mkFrameBytes p := by
  unfold runWT
  have hd : ¬ dec p = true := by rw [hdec]; simp
  rw [runLoop_single_frame dec p hlen1 hlen2 hrun, if_neg hd]
  refine ⟨?_, ?_, ?_⟩
  · rw [finalFlush_frames]
  · rw [finalFlush_processed]
  · rw [finalFlush_textBuf]

/-- C6 amended witness: the one-byte payload 7 under a codec that rejects
it. -/
theorem c6_decode_failure_amended_witness :
    (runWT neverDecodes (mkFrameBytes [7])).frames = [] ∧
    (runWT neverDecodes (mkFrameBytes [7])).processed = [] ∧
    (runWT neverDecodes (mkFrameBytes [7])).textBuf = mkFrameBytes [7] :=
  c6_decode_failure_amended neverDecodes [7] (by decide) (by decide) rfl (by decide)
